import Mathlib

/-!
Verification of the gcs-resource core (version resolution and parallel
upload) against its natural-language specification.

The Go source is shallowly embedded:
- `planParallelUpload` mirrors `gcsclient.planParallelUpload`
  (gcsresource client, lines 139-152).
- Chunk geometry (`chunkStart`, `chunkLen`) mirrors the fan-out loop of
  `gcsclient.UploadFile` (lines 184-216): worker `i` seeks to
  `trunkSize*i`; workers other than the last read through an
  `io.LimitReader(file, trunkSize)`, the last reads to end of file.
- `joinLoop` mirrors the result-collection loop (lines 218-223).
- `runMultipart` / `uploadFile` mirror the multi-part and single-part
  paths of `UploadFile` (lines 154-273); store calls are recorded as a
  trace of `StoreOp` values, and outcomes of the store calls are
  supplied as explicit parameters.
- `objectGenerations` / `downloadFile` mirror `ObjectGenerations`
  (lines 76-92) and `DownloadFile` (lines 94-107).
- The `versions` package (token extraction and ordering) is not part of
  the sources at hand; it is modelled from the specification where
  noted below.

All sizes are `Nat`: every value involved (`fileSize` from `os.Stat`,
`trunkSize` guarded positive by the caller) is a non-negative `int64` in
the source, and the arithmetic performed never exceeds `int64` range on
the reachable inputs, so Go's truncating division and remainder agree
with `Nat` division and `%`.
-/

namespace GcsResource

/-- Thread count computed by `planParallelUpload` before the 32-thread
clamp: `fileSize / trunkSize`, incremented when the division has a
remainder. -/
def preClampThreads (fileSize trunkSize : Nat) : Nat :=
  if fileSize % trunkSize ≠ 0 then fileSize / trunkSize + 1 else fileSize / trunkSize

/-- `gcsclient.planParallelUpload`: returns `(threads, trunkSize)`,
clamping to 32 threads and recomputing the chunk size as
`fileSize / 32` when the pre-clamp thread count exceeds 32. -/
def planParallelUpload (fileSize trunkSize : Nat) : Nat × Nat :=
  if preClampThreads fileSize trunkSize > 32 then (32, fileSize / 32)
  else (preClampThreads fileSize trunkSize, trunkSize)

/-- Byte offset at which chunk worker `i` starts reading: the source
seeks to `trunkSize*i`. -/
def chunkStart (trunkSize i : Nat) : Nat := trunkSize * i

/-- Number of bytes chunk worker `i` actually reads.  The last worker
(`i = threads-1`) reads from its offset to end of file; every other
worker reads through `io.LimitReader(file, trunkSize)`, hence
`min trunkSize (remaining bytes)`.  Natural subtraction models the
end-of-file clamp. -/
def chunkLen (fileSize trunkSize threads i : Nat) : Nat :=
  if i = threads - 1 then fileSize - trunkSize * i
  else min trunkSize (fileSize - trunkSize * i)

/-- One request issued to the object store, as recorded in a trace.
`objectInsert` carries the byte range of the local file streamed into the
request body. -/
inductive StoreOp where
  | bucketGet (bucket : String)
  | objectsList (bucket pref : String) (withVersions : Bool)
  | objectGet (bucket key : String) (generation : Int)
  | objectDownload (bucket key : String)
  | objectInsert (bucket key : String) (start len : Nat)
  | objectCompose (bucket dest : String) (sources : List String)
  | objectDelete (bucket key : String)
deriving DecidableEq, Repr

def isComposeOp : StoreOp → Bool
  | .objectCompose _ _ _ => true
  | _ => false

def isDeleteOp : StoreOp → Bool
  | .objectDelete _ _ => true
  | _ => false

/-- Name of part object `i`: `objectPath + ".part" + strconv.Itoa(i)`. -/
def partName (objectPath : String) (i : Nat) : String :=
  objectPath ++ ".part" ++ toString i

/-- The result-collection loop of `UploadFile` (lines 218-223): receive
results one at a time in arrival order and return on the first error.
Returns (number of receives performed, error returned if any). -/
def joinLoop : List (Option String) → Nat × Option String
  | [] => (0, none)
  | none :: rest => ((joinLoop rest).1 + 1, (joinLoop rest).2)
  | some e :: _ => (1, some e)

/-- The multi-part (parallelMode) branch of `UploadFile` (lines 183-244).
`arrivals` is the sequence of chunk-worker results in the order they are
received from the error channel; `composeRes`/`deleteRes` are the
outcomes of the compose call and of each per-part delete call.  Returns
(function result, trace of store requests issued, warnings logged). -/
def runMultipart (bucket objectPath : String) (fileSize trunkSize threads : Nat)
    (arrivals : List (Option String)) (composeRes : Option String)
    (deleteRes : Nat → Option String) :
    Except String Int × List StoreOp × List String :=
  let submits := (List.range threads).map fun i =>
    StoreOp.objectInsert bucket (partName objectPath i)
      (chunkStart trunkSize i) (chunkLen fileSize trunkSize threads i)
  match (joinLoop arrivals).2 with
  | some e => (.error e, submits, [])
  | none =>
    let comp := StoreOp.objectCompose bucket objectPath
      ((List.range threads).map (partName objectPath))
    match composeRes with
    | some e => (.error e, submits ++ [comp], [])
    | none =>
      (.ok 0,
       submits ++ [comp] ++ (List.range threads).map
         (fun i => StoreOp.objectDelete bucket (partName objectPath i)),
       (List.range threads).filterMap fun i => (deleteRes i).map fun e =>
         "Warning: Failed to delete file " ++ partName objectPath i ++ ": " ++ e)

/-- Two's-complement wrap into signed 64-bit range, modelling Go `int64`
overflow: the constants are 2^63 and 2^64. -/
def wrap64 (x : Int) : Int :=
  (x + 9223372036854775808) % 18446744073709551616 - 9223372036854775808

/-- `trunkSize := int64(parallelUploadThreshold) << 20` (line 167): a
left shift of a 64-bit integer, so the product wraps; e.g. a threshold
of 2^44 yields a trunk size of 0. -/
def trunkSize64 (threshold : Int) : Int :=
  wrap64 (threshold * 1048576)

/-- `gcsclient.planParallelUpload` (lines 139-152) on `int64` values as
Go executes it: `Int.tdiv`/`Int.tmod` are Go's truncated division and
remainder, and dividing by a zero trunk size panics, modelled as `none`.
(No other operation here can overflow: quotients never exceed the
dividend in magnitude and 32 and `fileSize / 32` are in range.) -/
def planParallelUpload64 (fileSize trunkSize : Int) : Option (Int × Int) :=
  if trunkSize = 0 then none
  else
    let threads := Int.tdiv fileSize trunkSize
    let threads := if Int.tmod fileSize trunkSize ≠ 0 then threads + 1 else threads
    if threads > 32 then some (32, Int.tdiv fileSize 32)
    else some (threads, trunkSize)

/-- Thread count and trunk size chosen by `UploadFile` (lines 164-171):
`threads = 1` and `trunkSize = threshold << 20` initially, replaced by
`planParallelUpload` when the threshold parameter is positive.  This
`Nat` model is the restriction of the faithful `planParallelUpload64` ∘
`trunkSize64` to thresholds whose shift does not wrap
(0 < threshold < 2^43, where `trunkSize64` is positive and planning
cannot fault); wrapping thresholds are treated by `planParallelUpload64`
directly.  (For a non-positive threshold the Go `trunkSize` may be
non-positive; it is never used on that path, so `Int.toNat` is
faithful.) -/
def uploadPlan (fileSize : Nat) (threshold : Int) : Nat × Nat :=
  if 0 < threshold then planParallelUpload fileSize (threshold.toNat <<< 20)
  else (1, threshold.toNat <<< 20)

/-- `gcsclient.UploadFile` (lines 154-273).  `versioningRes` is the
outcome of the initial bucket-versioning query; `singleRes` is the
outcome of the single-part insert (the store-assigned generation on
success).  Returns (result, trace, warnings). -/
def uploadFile (versioningRes : Except String Bool) (fileSize : Nat)
    (bucket objectPath : String) (threshold : Int)
    (arrivals : List (Option String)) (composeRes : Option String)
    (deleteRes : Nat → Option String) (singleRes : Except String Int) :
    Except String Int × List StoreOp × List String :=
  match versioningRes with
  | .error e => (.error e, [.bucketGet bucket], [])
  | .ok isBucketVersioned =>
    let plan := uploadPlan fileSize threshold
    if 1 < plan.1 then
      let r := runMultipart bucket objectPath fileSize plan.2 plan.1
        arrivals composeRes deleteRes
      (r.1, .bucketGet bucket :: r.2.1, r.2.2)
    else
      match singleRes with
      | .error e =>
        (.error e, [.bucketGet bucket, .objectInsert bucket objectPath 0 fileSize], [])
      | .ok gen =>
        (.ok (if isBucketVersioned then gen else 0),
         [.bucketGet bucket, .objectInsert bucket objectPath 0 fileSize], [])

/-- `gcsclient.ObjectGenerations` (lines 76-92): fails unless bucket
versioning is enabled, then lists generations of the object.  `items` is
the (name, generation) listing the store would return. -/
def objectGenerations (versioningRes : Except String Bool)
    (bucket objectPath : String) (items : List (String × Int)) :
    Except String (List Int) × List StoreOp :=
  match versioningRes with
  | .error e => (.error e, [.bucketGet bucket])
  | .ok false => (.error "bucket is not versioned", [.bucketGet bucket])
  | .ok true =>
    (.ok ((items.filter fun p => p.1 = objectPath).map fun p => p.2),
     [.bucketGet bucket, .objectsList bucket objectPath true])

/-- `gcsclient.DownloadFile` (lines 94-137): a non-zero generation on a
non-versioned bucket fails before any object get or download is issued.
`getRes`/`downloadRes` are the outcomes of the metadata get and of the
media download. -/
def downloadFile (versioningRes : Except String Bool)
    (bucket objectPath : String) (generation : Int)
    (getRes : Except String Unit) (downloadRes : Except String Unit) :
    Except String Unit × List StoreOp :=
  match versioningRes with
  | .error e => (.error e, [.bucketGet bucket])
  | .ok isBucketVersioned =>
    if ¬isBucketVersioned ∧ generation ≠ 0 then
      (.error "bucket is not versioned", [.bucketGet bucket])
    else
      match getRes with
      | .error e => (.error e, [.bucketGet bucket, .objectGet bucket objectPath generation])
      | .ok _ =>
        match downloadRes with
        | .error e =>
          (.error e, [.bucketGet bucket, .objectGet bucket objectPath generation,
            .objectDownload bucket objectPath])
        | .ok _ =>
          (.ok (), [.bucketGet bucket, .objectGet bucket objectPath generation,
            .objectDownload bucket objectPath])

/-- Modelled from the spec: one run of a version token.  The versions
package (token extraction and comparison) is not among the sources at
hand; spec §3/§4.1 decompose a token into alternating maximal runs of
digit characters (compared as arbitrary-precision unsigned integers) and
non-digit characters (compared lexicographically by code point). -/
inductive Seg where
  | num (n : Nat)
  | chars (s : List Char)
deriving DecidableEq, Repr

/-- Value of a digit run read as a base-10 numeral. -/
def natOfRun (s : List Char) : Nat :=
  s.foldl (fun n c => n * 10 + (c.toNat - 48)) 0

def mkSeg (d : Bool) (acc : List Char) : Seg :=
  if d then .num (natOfRun acc) else .chars acc

/-- Accumulates the current run (class `d`, characters `acc`) while
scanning the remaining characters. -/
def segsGo (d : Bool) (acc : List Char) : List Char → List Seg
  | [] => [mkSeg d acc]
  | c :: cs =>
    if c.isDigit = d then segsGo d (acc ++ [c]) cs
    else mkSeg d acc :: segsGo c.isDigit [c] cs

/-- Modelled from the spec (§3): split a token's raw string into its
ordered sequence of digit / non-digit runs, e.g. "1.5.6-build.10" into
[1, ".", 5, ".", 6, "-build.", 10]. -/
def tokenSegs (s : String) : List Seg :=
  match s.data with
  | [] => []
  | c :: cs => segsGo c.isDigit [c] cs

/-- Modelled from the spec (§4.1): digit runs compare as numbers,
non-digit runs by code point.  The spec leaves a digit run against a
non-digit run unspecified; this model fixes digit-run-first, which no
claim depends on. -/
def segCmp : Seg → Seg → Ordering
  | .num a, .num b => compare a b
  | .chars a, .chars b => compare a b
  | .num _, .chars _ => .lt
  | .chars _, .num _ => .gt

/-- Modelled from the spec (§4.1): compare runs pairwise left to right;
a token that runs out of segments first sorts first. -/
def segListCmp : List Seg → List Seg → Ordering
  | [], [] => .eq
  | [], _ :: _ => .lt
  | _ :: _, [] => .gt
  | a :: as, b :: bs => (segCmp a b).then (segListCmp as bs)

def tokenCmp (a b : String) : Ordering :=
  segListCmp (tokenSegs a) (tokenSegs b)

/-- `a` is not strictly greater than `b` in the numeric-aware token
order. -/
def tokenLE (a b : String) : Bool :=
  tokenCmp a b != Ordering.gt

/-- A candidate: an object key paired with its extracted version
token. -/
structure Extraction where
  path : String
  version : String
deriving DecidableEq, Repr

def extLE (e f : Extraction) : Bool := tokenLE e.version f.version

/-- The candidate pool: keys on which the extraction function matches,
paired with their tokens, in listing order. -/
def extractionsOf (keys : List String)
    (extractFn : String → Option String) : List Extraction :=
  keys.filterMap fun k => (extractFn k).map fun v => { path := k, version := v }

/-- Modelled from the spec (§4.2 pattern mode): the extractions of the
listed keys, in ascending token order. -/
def getBucketObjectVersions (keys : List String)
    (extractFn : String → Option String) : List Extraction :=
  (extractionsOf keys extractFn).mergeSort extLE

/-- `InCommand.pathToDownload`: an explicitly requested version path is
used directly; otherwise the last (maximal) extraction wins, and an
empty candidate pool is the no-candidates error. -/
def pathToDownload (versionPath : String) (keys : List String)
    (extractFn : String → Option String) : Except String String :=
  if versionPath ≠ "" then .ok versionPath
  else
    match (getBucketObjectVersions keys extractFn).getLast? with
    | none => .error "no extractions could be found - is your regexp correct?"
    | some e => .ok e.path

/-- Strips a literal leading run of characters, or fails. -/
def stripLead : List Char → List Char → Option (List Char)
  | [], s => some s
  | _ :: _, [] => none
  | a :: ps, b :: ss => if a = b then stripLead ps ss else none

/-- Strips a literal trailing run of characters, or fails. -/
def stripTail (suf s : List Char) : Option (List Char) :=
  (stripLead suf.reverse s.reverse).map List.reverse

/-- Modelled from the spec: applying the capturing pattern
`folder/file-(.*).tgz` of the regression scenario — the capture is the
substring between the literal lead `folder/file-` and the literal tail
`.tgz`. -/
def demoExtract (key : String) : Option String :=
  match stripLead "folder/file-".data key.data with
  | none => none
  | some rest =>
    match stripTail ".tgz".data rest with
    | none => none
    | some mid => some (String.mk mid)

/-- The candidate keys of end-to-end scenario 1. -/
def demoKeys : List String :=
  ["folder/file-1.5.6-build.10.tgz", "folder/file-1.5.6-build.100.tgz",
   "folder/file-1.5.6-build.9.tgz"]

theorem preClampThreads_eq_ceil {fileSize trunkSize : Nat} (h : 0 < trunkSize) :
    preClampThreads fileSize trunkSize = (fileSize + trunkSize - 1) / trunkSize := by
  unfold preClampThreads
  by_cases hm : fileSize % trunkSize = 0
  · simp only [hm, ne_eq, not_true_eq_false, if_false]
    obtain ⟨q, hq⟩ : trunkSize ∣ fileSize := Nat.dvd_of_mod_eq_zero hm
    subst hq
    rw [Nat.mul_div_cancel_left q h]
    have h1 : trunkSize * q + trunkSize - 1 = (trunkSize - 1) + trunkSize * q := by omega
    rw [h1, Nat.add_mul_div_left _ _ h, Nat.div_eq_of_lt (by omega), Nat.zero_add]
  · simp only [ne_eq, hm, not_false_eq_true, if_true]
    have hdm : trunkSize * (fileSize / trunkSize) + fileSize % trunkSize = fileSize :=
      Nat.div_add_mod fileSize trunkSize
    have hr1 : 1 ≤ fileSize % trunkSize := Nat.one_le_iff_ne_zero.mpr hm
    have hrlt : fileSize % trunkSize < trunkSize := Nat.mod_lt _ h
    have key : fileSize + trunkSize - 1 =
        (fileSize % trunkSize - 1) + trunkSize * (fileSize / trunkSize + 1) := by
      rw [Nat.mul_add, Nat.mul_one]
      omega
    have h0 : (fileSize % trunkSize - 1) / trunkSize = 0 := Nat.div_eq_of_lt (by omega)
    rw [key, Nat.add_mul_div_left _ _ h, h0, Nat.zero_add]

theorem planParallelUpload_of_le {fileSize trunkSize : Nat}
    (h : preClampThreads fileSize trunkSize ≤ 32) :
    planParallelUpload fileSize trunkSize = (preClampThreads fileSize trunkSize, trunkSize) := by
  unfold planParallelUpload
  simp [Nat.not_lt.mpr h]

theorem planParallelUpload_of_gt {fileSize trunkSize : Nat}
    (h : 32 < preClampThreads fileSize trunkSize) :
    planParallelUpload fileSize trunkSize = (32, fileSize / 32) := by
  unfold planParallelUpload
  simp [h]

/-- Claim C7: for every fileSize > 0 and threshold > 0 the planned thread
count before clamping equals `ceil(fileSize / threshold)`; in particular
500 MiB with a 150 MiB threshold yields 4 threads of 150 MiB each, the
last chunk reading 50 MiB. -/
theorem plan_threads_ceil (fileSize trunkSize : Nat)
    (hfs : 0 < fileSize) (ht : 0 < trunkSize) :
    preClampThreads fileSize trunkSize = (fileSize + trunkSize - 1) / trunkSize ∧
    planParallelUpload (500 * 1048576) (150 * 1048576) = (4, 150 * 1048576) ∧
    chunkLen (500 * 1048576) (150 * 1048576) 4 3 = 50 * 1048576 := by
  refine ⟨preClampThreads_eq_ceil ht, by decide, by decide⟩

theorem plan_threads_ceil_witness :
    preClampThreads 500 150 = (500 + 150 - 1) / 150 :=
  (plan_threads_ceil 500 150 (by decide) (by decide)).1

/-- Claim C5 counterexample: at fileSize = 33 = 1*32 + 1 with
threshold = 1 the pre-clamp thread count is 33 > 32, the plan clamps to
(32, 33/32 = 1), and the recomputed chunk size times 32 is 32, which is
NOT ≥ 33 — refuting "recomputed chunk size × 32 ≥ fileSize". -/
theorem plan_clamp_chunk_cex :
    33 = 1 * 32 + 1 ∧ 32 < (33 + 1 - 1) / 1 ∧
    planParallelUpload 33 1 = (32, 1) ∧
    ¬ (planParallelUpload 33 1).2 * 32 ≥ 33 := by decide

/-- Claim C5 (amended): when `ceil(fileSize/threshold) > 32` the plan
clamps the thread count to exactly 32 and recomputes the chunk size as
`fileSize / 32`; for fileSize = threshold*32 + 1 the recomputed chunk
size times 32 equals fileSize − 1 (not ≥ fileSize). -/
theorem plan_clamp_recompute (fileSize trunkSize : Nat) (ht : 0 < trunkSize)
    (hclamp : 32 < (fileSize + trunkSize - 1) / trunkSize) :
    planParallelUpload fileSize trunkSize = (32, fileSize / 32) ∧
    (fileSize = trunkSize * 32 + 1 → fileSize / 32 * 32 = fileSize - 1) := by
  constructor
  · exact planParallelUpload_of_gt (by rw [preClampThreads_eq_ceil ht]; exact hclamp)
  · intro hfs
    subst hfs
    omega

theorem plan_clamp_recompute_witness :
    planParallelUpload 33 1 = (32, 33 / 32) ∧
    (33 = 1 * 32 + 1 → 33 / 32 * 32 = 33 - 1) :=
  plan_clamp_recompute 33 1 (by decide) (by decide)

/-- Claim C6 counterexample: for fileSize = 0 and a positive threshold
(5 MiB) the plan's thread count is 0, not "exactly 1". -/
theorem plan_zero_file_cex :
    planParallelUpload 0 (5 * 1048576) = (0, 5 * 1048576) ∧
    (planParallelUpload 0 (5 * 1048576)).1 ≠ 1 := by decide

theorem chunk_facts {fs c0 t c : Nat} (hc0 : 0 < c0)
    (hplan : planParallelUpload fs c0 = (t, c)) (ht : 2 ≤ t) :
    0 < c ∧ c * (t - 1) ≤ fs := by
  unfold planParallelUpload at hplan
  by_cases h32 : preClampThreads fs c0 > 32
  · rw [if_pos h32] at hplan
    injection hplan with h1 h2
    subst h1; subst h2
    have hps : preClampThreads fs c0 ≤ fs / c0 + 1 := by
      unfold preClampThreads; split <;> omega
    have hds : fs / c0 ≤ fs := Nat.div_le_self fs c0
    have hfs32 : 32 ≤ fs := by omega
    refine ⟨Nat.div_pos hfs32 (by omega), ?_⟩
    calc fs / 32 * 31 ≤ fs / 32 * 32 := Nat.mul_le_mul (Nat.le_refl _) (by omega)
      _ ≤ fs := Nat.div_mul_le_self fs 32
  · rw [if_neg h32] at hplan
    injection hplan with h1 h2
    subst h1; subst h2
    refine ⟨hc0, ?_⟩
    have hdm : c0 * (fs / c0) + fs % c0 = fs := Nat.div_add_mod fs c0
    have hmlt : fs % c0 < c0 := Nat.mod_lt _ hc0
    unfold preClampThreads at ht ⊢
    by_cases hm : fs % c0 = 0
    · simp only [hm, ne_eq, not_true_eq_false, if_false] at ht ⊢
      have e1 : c0 * (fs / c0) = c0 * (fs / c0 - 1) + c0 := by
        conv_lhs => rw [show fs / c0 = fs / c0 - 1 + 1 from by omega]
        rw [Nat.mul_succ]
      have e2 : c0 * (fs / c0 - 1) = (fs / c0 - 1) * c0 := Nat.mul_comm _ _
      omega
    · simp only [ne_eq, hm, not_false_eq_true, if_true, Nat.add_sub_cancel]
      have e2 : c0 * (fs / c0) = fs / c0 * c0 := Nat.mul_comm _ _
      omega

theorem chunkLen_of_lt {fs c t : Nat} (F2 : c * (t - 1) ≤ fs) {i : Nat}
    (hi : i < t - 1) : chunkLen fs c t i = c := by
  unfold chunkLen
  rw [if_neg (by omega)]
  have h1 : c * (i + 1) ≤ fs :=
    Nat.le_trans (Nat.mul_le_mul (Nat.le_refl c) (by omega)) F2
  have h2 : c * (i + 1) = c * i + c := Nat.mul_succ c i
  exact min_eq_left (by omega)

theorem chunkLen_last {fs c t : Nat} :
    chunkLen fs c t (t - 1) = fs - c * (t - 1) := by
  unfold chunkLen
  rw [if_pos rfl]

/-- Claim C3: for every multi-part plan (threads ≥ 2, chunk size as
planned, possibly clamped), chunk worker i for i < threads−1 reads
exactly the bytes [i*chunk, (i+1)*chunk), the final worker reads from
(threads−1)*chunk to end of file, and every byte of the file is covered
by exactly one worker. -/
theorem multipart_chunks_partition (fileSize trunkSize threads chunk : Nat)
    (hc0 : 0 < trunkSize)
    (hplan : planParallelUpload fileSize trunkSize = (threads, chunk))
    (ht : 2 ≤ threads) :
    (∀ i, i < threads - 1 →
      chunkStart chunk i = chunk * i ∧ chunkLen fileSize chunk threads i = chunk) ∧
    (chunkStart chunk (threads - 1) = chunk * (threads - 1) ∧
      chunkLen fileSize chunk threads (threads - 1) = fileSize - chunk * (threads - 1) ∧
      chunk * (threads - 1) ≤ fileSize) ∧
    (∀ b, b < fileSize → ∃! i, i < threads ∧
      chunkStart chunk i ≤ b ∧ b < chunkStart chunk i + chunkLen fileSize chunk threads i) := by
  obtain ⟨F1, F2⟩ := chunk_facts hc0 hplan ht
  have hlenlt : ∀ i, i < threads - 1 → chunkLen fileSize chunk threads i = chunk :=
    fun i hi => chunkLen_of_lt F2 hi
  refine ⟨fun i hi => ⟨rfl, hlenlt i hi⟩, ⟨rfl, chunkLen_last, F2⟩, ?_⟩
  intro b hb
  have hmulmono : ∀ j k : Nat, j ≤ k → chunk * j ≤ chunk * k :=
    fun j k hjk => Nat.mul_le_mul (Nat.le_refl chunk) hjk
  by_cases hcase : b < chunk * (threads - 1)
  · -- covered by chunk worker b / chunk, which is not the last one
    have hdm : chunk * (b / chunk) + b % chunk = b := Nat.div_add_mod b chunk
    have hmlt : b % chunk < chunk := Nat.mod_lt _ F1
    have hi : b / chunk < threads - 1 := by
      by_contra hge
      push_neg at hge
      have := hmulmono _ _ hge
      omega
    refine ⟨b / chunk, ⟨by omega, by simpa [chunkStart] using by omega, ?_⟩, ?_⟩
    · rw [hlenlt _ hi]
      simp only [chunkStart]
      omega
    · rintro j ⟨hj, hj1, hj2⟩
      simp only [chunkStart] at hj1 hj2
      rcases Nat.lt_or_ge j (threads - 1) with hjlt | hjge
      · rw [hlenlt _ hjlt] at hj2
        -- chunk * j ≤ b < chunk * j + chunk pins j = b / chunk
        have e1 : chunk * (j + 1) = chunk * j + chunk := Nat.mul_succ chunk j
        rcases Nat.lt_trichotomy j (b / chunk) with h | h | h
        · have := hmulmono _ _ (show j + 1 ≤ b / chunk by omega)
          omega
        · exact h
        · have := hmulmono _ _ (show b / chunk + 1 ≤ j by omega)
          have e2 : chunk * (b / chunk + 1) = chunk * (b / chunk) + chunk :=
            Nat.mul_succ chunk (b / chunk)
          omega
      · exfalso
        have hjeq : j = threads - 1 := by omega
        subst hjeq
        omega
  · -- covered by the last chunk worker
    refine ⟨threads - 1, ⟨by omega, ?_, ?_⟩, ?_⟩
    · simp only [chunkStart]; omega
    · rw [chunkLen_last]; simp only [chunkStart]; omega
    · rintro j ⟨hj, hj1, hj2⟩
      simp only [chunkStart] at hj1 hj2
      rcases Nat.lt_or_ge j (threads - 1) with hjlt | hjge
      · exfalso
        rw [hlenlt _ hjlt] at hj2
        have e1 : chunk * (j + 1) = chunk * j + chunk := Nat.mul_succ chunk j
        have := hmulmono _ _ (show j + 1 ≤ threads - 1 by omega)
        omega
      · omega

theorem multipart_chunks_partition_witness :
    chunkStart (150 * 1048576) 1 = 150 * 1048576 * 1 ∧
    chunkLen (500 * 1048576) (150 * 1048576) 4 1 = 150 * 1048576 :=
  (multipart_chunks_partition (500 * 1048576) (150 * 1048576) 4 (150 * 1048576)
    (by decide) (by decide) (by decide)).1 1 (by decide)

theorem joinLoop_first_error (pre post : List (Option String)) (e : String)
    (hpre : ∀ x ∈ pre, x = none) :
    joinLoop (pre ++ some e :: post) = (pre.length + 1, some e) := by
  induction pre with
  | nil => rfl
  | cons a t ih =>
    have ha : a = none := hpre a (List.mem_cons_self a t)
    subst ha
    have ih' := ih fun x hx => hpre x (List.mem_cons_of_mem _ hx)
    simp [joinLoop, ih']

theorem joinLoop_all_none (l : List (Option String)) (h : ∀ x ∈ l, x = none) :
    joinLoop l = (l.length, none) := by
  induction l with
  | nil => rfl
  | cons a t ih =>
    have ha : a = none := h a (List.mem_cons_self a t)
    subst ha
    have ih' := ih fun x hx => h x (List.mem_cons_of_mem _ hx)
    simp [joinLoop, ih']

/-- Claim C1 counterexample: two chunk workers, the first arriving result
is an error.  The coordinator performs only 1 receive — it does NOT drain
the remaining worker (the claim predicts 2 receives) — though it does
return the first error and issues no compose request. -/
theorem multipart_no_drain_cex :
    (joinLoop [some "boom", none]).1 = 1 ∧ (1 : Nat) ≠ 2 ∧
    (runMultipart "bucket-name" "obj" 100 50 2 [some "boom", none] none
      fun _ => none).1 = .error "boom" ∧
    ((runMultipart "bucket-name" "obj" 100 50 2 [some "boom", none] none
      fun _ => none).2.1.filter isComposeOp) = [] :=
  ⟨rfl, by decide, rfl, rfl⟩

/-- Claim C1 (amended): if any chunk upload fails, `UploadFile` returns
the first error received from the result channel and never issues a
compose (or delete) request; however it does NOT drain the remaining
chunk workers — it returns immediately, having performed exactly
(number of successful results received before the first error) + 1
receives. -/
theorem multipart_first_error_wins (bucket objectPath : String)
    (fileSize trunkSize threads : Nat) (pre post : List (Option String))
    (e : String) (composeRes : Option String) (deleteRes : Nat → Option String)
    (hpre : ∀ x ∈ pre, x = none) :
    joinLoop (pre ++ some e :: post) = (pre.length + 1, some e) ∧
    runMultipart bucket objectPath fileSize trunkSize threads
        (pre ++ some e :: post) composeRes deleteRes =
      (.error e,
       (List.range threads).map fun i =>
         StoreOp.objectInsert bucket (partName objectPath i)
           (chunkStart trunkSize i) (chunkLen fileSize trunkSize threads i),
       []) := by
  have hj := joinLoop_first_error pre post e hpre
  exact ⟨hj, by simp [runMultipart, hj]⟩

theorem multipart_first_error_wins_witness :
    joinLoop ([none] ++ some "boom" :: [none, none]) = (2, some "boom") ∧
    runMultipart "bucket-name" "obj" 100 25 4
        ([none] ++ some "boom" :: [none, none]) none (fun _ => none) =
      (.error "boom",
       (List.range 4).map fun i =>
         StoreOp.objectInsert "bucket-name" (partName "obj" i)
           (chunkStart 25 i) (chunkLen 100 25 4 i),
       []) :=
  multipart_first_error_wins "bucket-name" "obj" 100 25 4 [none] [none, none]
    "boom" none (fun _ => none) (by decide)

/-- Claim C8: when all chunk uploads succeed (in any arrival order),
exactly one compose request is issued, and its source list is
[destinationKey.part0, …, destinationKey.part(threads−1)] in plan
(chunk-index) order. -/
theorem multipart_compose_plan_order (bucket objectPath : String)
    (fileSize trunkSize threads : Nat) (arrivals : List (Option String))
    (composeRes : Option String) (deleteRes : Nat → Option String)
    (hlen : arrivals.length = threads) (hok : ∀ x ∈ arrivals, x = none) :
    ((runMultipart bucket objectPath fileSize trunkSize threads arrivals
        composeRes deleteRes).2.1.filter isComposeOp) =
      [StoreOp.objectCompose bucket objectPath
        ((List.range threads).map (partName objectPath))] := by
  have hj := joinLoop_all_none arrivals hok
  cases composeRes <;>
    simp [runMultipart, hj, isComposeOp, List.filter_append, List.filter_map,
      Function.comp_def, List.filter_false, List.filter_true]

theorem multipart_compose_plan_order_witness :
    ((runMultipart "bucket-name" "big.file" (500 * 1048576) (150 * 1048576) 4
        [none, none, none, none] none fun _ => none).2.1.filter isComposeOp) =
      [StoreOp.objectCompose "bucket-name" "big.file"
        ["big.file.part0", "big.file.part1", "big.file.part2", "big.file.part3"]] := by
  have h := multipart_compose_plan_order "bucket-name" "big.file"
    (500 * 1048576) (150 * 1048576) 4 [none, none, none, none] none
    (fun _ => none) (by decide) (by decide)
  rw [h]
  rfl

/-- Claim C9: after a successful compose, a delete request is issued for
every one of the `threads` part objects, delete failures are only logged
as warnings, and `UploadFile` returns success — for every possible
combination of delete outcomes. -/
theorem multipart_cleanup_best_effort (bucket objectPath : String)
    (fileSize trunkSize threads : Nat) (arrivals : List (Option String))
    (deleteRes : Nat → Option String)
    (hok : ∀ x ∈ arrivals, x = none) :
    (runMultipart bucket objectPath fileSize trunkSize threads arrivals
        none deleteRes).1 = .ok 0 ∧
    ((runMultipart bucket objectPath fileSize trunkSize threads arrivals
        none deleteRes).2.1.filter isDeleteOp) =
      (List.range threads).map (fun i => StoreOp.objectDelete bucket (partName objectPath i)) ∧
    (runMultipart bucket objectPath fileSize trunkSize threads arrivals
        none deleteRes).2.2 =
      (List.range threads).filterMap (fun i => (deleteRes i).map fun e =>
        "Warning: Failed to delete file " ++ partName objectPath i ++ ": " ++ e) := by
  have hj := joinLoop_all_none arrivals hok
  refine ⟨by simp [runMultipart, hj], ?_, by simp [runMultipart, hj]⟩
  simp [runMultipart, hj, isDeleteOp, List.filter_append, List.filter_map,
    Function.comp_def, List.filter_false, List.filter_true]

theorem multipart_cleanup_best_effort_witness :
    (runMultipart "bucket-name" "big.file" 100 50 2 [none, none]
        none (fun _ => some "delete failed")).1 = .ok 0 ∧
    ((runMultipart "bucket-name" "big.file" 100 50 2 [none, none]
        none (fun _ => some "delete failed")).2.1.filter isDeleteOp) =
      (List.range 2).map (fun i => StoreOp.objectDelete "bucket-name" (partName "big.file" i)) ∧
    (runMultipart "bucket-name" "big.file" 100 50 2 [none, none]
        none (fun _ => some "delete failed")).2.2 =
      (List.range 2).filterMap (fun i => (some "delete failed").map fun e =>
        "Warning: Failed to delete file " ++ partName "big.file" i ++ ": " ++ e) :=
  multipart_cleanup_best_effort "bucket-name" "big.file" 100 50 2 [none, none]
    (fun _ => some "delete failed") (by decide)

/-- Claim C10: a successful multi-part upload returns generation 0
regardless of whether the bucket is versioned; the single-part path
returns the store-assigned generation when the bucket is versioned and
0 otherwise. -/
theorem uploadFile_generation_zero (v : Bool) (fileSize : Nat)
    (bucket objectPath : String) (threshold : Int)
    (arrivals : List (Option String)) (composeRes : Option String)
    (deleteRes : Nat → Option String) (singleRes : Except String Int) (g : Int) :
    (1 < (uploadPlan fileSize threshold).1 → (∀ x ∈ arrivals, x = none) →
      (uploadFile (.ok v) fileSize bucket objectPath threshold arrivals none
        deleteRes singleRes).1 = .ok 0) ∧
    (¬ 1 < (uploadPlan fileSize threshold).1 →
      (uploadFile (.ok v) fileSize bucket objectPath threshold arrivals composeRes
        deleteRes (.ok g)).1 = .ok (if v then g else 0)) := by
  constructor
  · intro hpar hok
    have hj := joinLoop_all_none arrivals hok
    simp [uploadFile, hpar, runMultipart, hj]
  · intro hpar
    simp [uploadFile, hpar]

theorem uploadFile_generation_zero_witness :
    (uploadFile (.ok true) 2097152 "bucket-name" "obj" 1
      [none, none] none (fun _ => none) (.ok 777)).1 = .ok 0 :=
  (uploadFile_generation_zero true 2097152 "bucket-name" "obj" 1
    [none, none] none (fun _ => none) (.ok 777) 777).1 (by decide) (by decide)

/-- Claim C6 (amended): for fileSize = 0 and any positive threshold,
when the wrapped 64-bit trunk size `threshold << 20` is non-zero the
plan is computed without fault and has thread count 0 (not 1), so
`UploadFile` takes the single-part (whole-file, here empty-body) path;
but planning is not fault-free for every positive threshold: when the
shift wraps to a zero trunk size (e.g. threshold = 2^44) planning
divides by zero (a Go panic).  On the non-wrapping domain
(threshold < 2^43) the `Nat` model agrees with the wrapped trunk size
and the single-part upload proceeds. -/
theorem plan_zero_file_single_part (threshold : Int) (h : 0 < threshold)
    (v : Bool) (bucket objectPath : String) (arrivals : List (Option String))
    (composeRes : Option String) (deleteRes : Nat → Option String) (g : Int) :
    (trunkSize64 threshold ≠ 0 →
      planParallelUpload64 0 (trunkSize64 threshold) = some (0, trunkSize64 threshold) ∧
      ¬ (1 : Int) < 0) ∧
    (trunkSize64 threshold = 0 →
      planParallelUpload64 0 (trunkSize64 threshold) = none) ∧
    trunkSize64 (2 ^ 44) = 0 ∧
    (threshold < 2 ^ 43 →
      trunkSize64 threshold = ((threshold.toNat <<< 20 : Nat) : Int) ∧
      (uploadPlan 0 threshold).1 = 0 ∧ ¬ 1 < (uploadPlan 0 threshold).1 ∧
      uploadFile (.ok v) 0 bucket objectPath threshold arrivals composeRes
          deleteRes (.ok g) =
        (.ok (if v then g else 0),
         [StoreOp.bucketGet bucket, StoreOp.objectInsert bucket objectPath 0 0], [])) := by
  refine ⟨?_, ?_, by decide, ?_⟩
  · intro hne
    refine ⟨?_, by decide⟩
    unfold planParallelUpload64
    rw [if_neg hne, Int.zero_tdiv, Int.zero_tmod]
    norm_num
  · intro hz
    unfold planParallelUpload64
    rw [if_pos hz]
  · intro hlt
    have h1 : uploadPlan 0 threshold = (0, threshold.toNat <<< 20) := by
      simp [uploadPlan, h, planParallelUpload, preClampThreads]
    have e1 : ((threshold.toNat <<< 20 : Nat) : Int) = threshold * 1048576 := by
      rw [Nat.shiftLeft_eq]
      push_cast
      rw [Int.toNat_of_nonneg h.le]
    have e2 : trunkSize64 threshold = threshold * 1048576 := by
      unfold trunkSize64 wrap64
      have hlt' : threshold < 8796093022208 := by norm_num at hlt; exact hlt
      omega
    refine ⟨by rw [e1, e2], by rw [h1], by rw [h1]; exact Nat.not_lt.mpr (Nat.zero_le 1), ?_⟩
    simp [uploadFile, h1]

theorem plan_zero_file_single_part_witness :
    (planParallelUpload64 0 (trunkSize64 5) = some (0, trunkSize64 5) ∧
      ¬ (1 : Int) < 0) ∧
    trunkSize64 (2 ^ 44) = 0 ∧
    (trunkSize64 5 = (((5 : Int).toNat <<< 20 : Nat) : Int) ∧
      (uploadPlan 0 5).1 = 0 ∧ ¬ 1 < (uploadPlan 0 5).1 ∧
      uploadFile (.ok false) 0 "bucket-name" "obj" 5 [] none
          (fun _ => none) (.ok 777) =
        (.ok (if false then 777 else 0),
         [StoreOp.bucketGet "bucket-name", StoreOp.objectInsert "bucket-name" "obj" 0 0],
         [])) :=
  ⟨(plan_zero_file_single_part 5 (by decide) false "bucket-name" "obj" [] none
      (fun _ => none) 777).1 (by decide),
   (plan_zero_file_single_part 5 (by decide) false "bucket-name" "obj" [] none
      (fun _ => none) 777).2.2.1,
   (plan_zero_file_single_part 5 (by decide) false "bucket-name" "obj" [] none
      (fun _ => none) 777).2.2.2 (by decide)⟩

/-- Claim C4: in versioned-file mode with bucket versioning disabled,
`ObjectGenerations` fails with "bucket is not versioned" before issuing
any listing, and `DownloadFile` with a non-zero generation fails with the
same error before issuing any object get or download: both traces stop
at the bucket-metadata query. -/
theorem versioned_ops_require_versioning (bucket objectPath : String)
    (items : List (String × Int)) (generation : Int)
    (getRes downloadRes : Except String Unit) (hgen : generation ≠ 0) :
    objectGenerations (.ok false) bucket objectPath items =
      (.error "bucket is not versioned", [.bucketGet bucket]) ∧
    downloadFile (.ok false) bucket objectPath generation getRes downloadRes =
      (.error "bucket is not versioned", [.bucketGet bucket]) := by
  refine ⟨rfl, ?_⟩
  simp [downloadFile, hgen]

theorem versioned_ops_require_versioning_witness :
    objectGenerations (.ok false) "bucket-name" "folder/version" [("folder/version", 4)] =
      (.error "bucket is not versioned", [.bucketGet "bucket-name"]) ∧
    downloadFile (.ok false) "bucket-name" "folder/version" 12345 (.ok ()) (.ok ()) =
      (.error "bucket is not versioned", [.bucketGet "bucket-name"]) :=
  versioned_ops_require_versioning "bucket-name" "folder/version"
    [("folder/version", 4)] 12345 (.ok ()) (.ok ()) (by decide)

theorem segCmp_symm (x y : Seg) : (segCmp x y).swap = segCmp y x := by
  cases x <;> cases y
  case num.num a b =>
    show (compare a b).swap = compare b a
    exact Batteries.OrientedCmp.symm a b
  case num.chars a s => rfl
  case chars.num s a => rfl
  case chars.chars a b =>
    show (compare a b).swap = compare b a
    exact Batteries.OrientedCmp.symm a b

theorem segCmp_refl (x : Seg) : segCmp x x = .eq := by
  cases x
  case num a =>
    show compare a a = .eq
    exact Batteries.OrientedCmp.cmp_refl
  case chars s =>
    show compare s s = .eq
    exact Batteries.OrientedCmp.cmp_refl

theorem segCmp_eq_iff {x y : Seg} : segCmp x y = .eq ↔ x = y := by
  cases x <;> cases y
  case num.num a b =>
    simp only [segCmp, Seg.num.injEq]
    exact compare_eq_iff_eq
  case num.chars a s => simp [segCmp]
  case chars.num s a => simp [segCmp]
  case chars.chars a b =>
    simp only [segCmp, Seg.chars.injEq]
    exact compare_eq_iff_eq

theorem segCmp_lt_trans : ∀ (x y z : Seg),
    segCmp x y = .lt → segCmp y z = .lt → segCmp x z = .lt
  | .num a, .num b, .num c, h1, h2 => by
    have h1' : compare a b = .lt := h1
    have h2' : compare b c = .lt := h2
    show compare a c = .lt
    exact Batteries.TransCmp.lt_trans h1' h2'
  | .num _, .num _, .chars _, _, _ => rfl
  | .num _, .chars _, .num _, _, h2 => absurd h2 (by simp [segCmp])
  | .num _, .chars _, .chars _, _, _ => rfl
  | .chars _, .num _, _, h1, _ => absurd h1 (by simp [segCmp])
  | .chars _, .chars _, .num _, _, h2 => absurd h2 (by simp [segCmp])
  | .chars a, .chars b, .chars c, h1, h2 => by
    have h1' : compare a b = .lt := h1
    have h2' : compare b c = .lt := h2
    show compare a c = .lt
    exact Batteries.TransCmp.lt_trans h1' h2'

theorem segListCmp_refl : ∀ l : List Seg, segListCmp l l = .eq
  | [] => rfl
  | a :: t => by
    show (segCmp a a).then (segListCmp t t) = .eq
    rw [segCmp_refl, segListCmp_refl t]
    rfl

theorem segListCmp_symm : ∀ a b : List Seg, (segListCmp a b).swap = segListCmp b a
  | [], [] => rfl
  | [], _ :: _ => rfl
  | _ :: _, [] => rfl
  | a :: as, b :: bs => by
    show ((segCmp a b).then (segListCmp as bs)).swap = (segCmp b a).then (segListCmp bs as)
    rw [Ordering.swap_then, segCmp_symm, segListCmp_symm as bs]

theorem segListCmp_le_trans : ∀ (x y z : List Seg),
    segListCmp x y ≠ .gt → segListCmp y z ≠ .gt → segListCmp x z ≠ .gt := by
  intro x
  induction x with
  | nil =>
    intro y z _ _
    cases z <;> simp [segListCmp]
  | cons a as ih =>
    intro y z h1 h2
    cases y with
    | nil => simp [segListCmp] at h1
    | cons b bs =>
      cases z with
      | nil => simp [segListCmp] at h2
      | cons c cs =>
        simp only [segListCmp] at h1 h2 ⊢
        rcases hab : segCmp a b with _ | _ | _
        · rcases hbc : segCmp b c with _ | _ | _
          · rw [segCmp_lt_trans a b c hab hbc]
            simp [Ordering.then]
          · obtain rfl : b = c := segCmp_eq_iff.mp hbc
            rw [hab]
            simp [Ordering.then]
          · rw [hbc] at h2
            simp [Ordering.then] at h2
        · obtain rfl : a = b := segCmp_eq_iff.mp hab
          rw [segCmp_refl] at h1
          simp only [Ordering.then] at h1
          rcases hac : segCmp a c with _ | _ | _
          · simp [Ordering.then]
          · obtain rfl : a = c := segCmp_eq_iff.mp hac
            rw [hac] at h2
            simp only [Ordering.then] at h2 ⊢
            exact ih bs cs h1 h2
          · rw [hac] at h2
            simp [Ordering.then] at h2
        · rw [hab] at h1
          simp [Ordering.then] at h1

theorem tokenCmp_symm (a b : String) : (tokenCmp a b).swap = tokenCmp b a :=
  segListCmp_symm _ _

theorem tokenLE_refl (s : String) : tokenLE s s = true := by
  unfold tokenLE tokenCmp
  rw [segListCmp_refl]
  rfl

theorem tokenLE_iff {a b : String} : tokenLE a b = true ↔ tokenCmp a b ≠ .gt := by
  unfold tokenLE
  rcases h : tokenCmp a b with _ | _ | _ <;> decide

theorem tokenLE_total (a b : String) : (tokenLE a b || tokenLE b a) = true := by
  rcases h : tokenCmp a b with _ | _ | _
  · have h1 : tokenLE a b = true := by unfold tokenLE; rw [h]; rfl
    rw [h1]
    rfl
  · have h1 : tokenLE a b = true := by unfold tokenLE; rw [h]; rfl
    rw [h1]
    rfl
  · have hs := tokenCmp_symm a b
    rw [h] at hs
    have hlt : tokenCmp b a = .lt := hs.symm
    have h2 : tokenLE b a = true := by unfold tokenLE; rw [hlt]; rfl
    rw [h2, Bool.or_true]

theorem tokenLE_trans {a b c : String} (h1 : tokenLE a b = true)
    (h2 : tokenLE b c = true) : tokenLE a c = true := by
  rw [tokenLE_iff] at h1 h2 ⊢
  exact segListCmp_le_trans _ _ _ h1 h2

theorem extLE_refl (e : Extraction) : extLE e e = true := tokenLE_refl _

theorem extLE_total (e f : Extraction) : (extLE e f || extLE f e) = true :=
  tokenLE_total _ _

theorem extLE_trans (e f g : Extraction) (h1 : extLE e f = true)
    (h2 : extLE f g = true) : extLE e g = true := tokenLE_trans h1 h2

theorem pairwise_extLE_getLast : ∀ {l : List Extraction},
    l.Pairwise (fun a b => extLE a b = true) → ∀ (hne : l ≠ []),
    ∀ x ∈ l, extLE x (l.getLast hne) = true := by
  intro l
  induction l with
  | nil => intro _ hne; exact absurd rfl hne
  | cons a t ih =>
    intro hp hne x hx
    obtain ⟨hrel, hp'⟩ := List.pairwise_cons.mp hp
    cases t with
    | nil =>
      obtain rfl : x = a := by simpa using hx
      exact extLE_refl _
    | cons b t2 =>
      rw [List.getLast_cons (List.cons_ne_nil b t2)]
      rcases List.mem_cons.mp hx with rfl | hx2
      · exact hrel _ (List.getLast_mem (List.cons_ne_nil b t2))
      · exact ih hp' (List.cons_ne_nil b t2) x hx2

theorem pathToDownload_of_no_matches (keys : List String)
    (g : String → Option String) (h : extractionsOf keys g = []) :
    pathToDownload "" keys g =
      .error "no extractions could be found - is your regexp correct?" := by
  unfold pathToDownload getBucketObjectVersions
  rw [h]
  simp

theorem pathToDownload_max (keys : List String) (g : String → Option String)
    (h : extractionsOf keys g ≠ []) :
    ∃ e, e ∈ extractionsOf keys g ∧ pathToDownload "" keys g = .ok e.path ∧
      ∀ f ∈ extractionsOf keys g, extLE f e = true := by
  have hperm := List.mergeSort_perm (extractionsOf keys g) extLE
  have hsne : getBucketObjectVersions keys g ≠ [] := by
    unfold getBucketObjectVersions
    intro h0
    exact h (h0 ▸ hperm).symm.eq_nil
  have hpw : (getBucketObjectVersions keys g).Pairwise (fun a b => extLE a b = true) :=
    List.sorted_mergeSort extLE_trans extLE_total _
  refine ⟨(getBucketObjectVersions keys g).getLast hsne, ?_, ?_, ?_⟩
  · exact List.mem_mergeSort.mp (List.getLast_mem hsne)
  · unfold pathToDownload
    rw [if_neg (by simp), List.getLast?_eq_getLast _ hsne]
  · intro f hf
    exact pairwise_extLE_getLast hpw hsne _ (List.mem_mergeSort.mpr hf)

/-- Claim C2: in pattern mode with no requested version path, resolution
returns the object key whose extracted version token is maximal under
the numeric-aware order (digit runs as arbitrary-precision numbers), and
fails with the no-candidates error when zero keys match; on the
scenario-1 candidates the resolved latest is
"folder/file-1.5.6-build.100.tgz". -/
theorem pathToDownload_resolves_max_token (keys : List String)
    (extractFn : String → Option String) :
    (extractionsOf keys extractFn = [] →
      pathToDownload "" keys extractFn =
        .error "no extractions could be found - is your regexp correct?") ∧
    (extractionsOf keys extractFn ≠ [] →
      ∃ e, e ∈ extractionsOf keys extractFn ∧
        pathToDownload "" keys extractFn = .ok e.path ∧
        ∀ f ∈ extractionsOf keys extractFn, tokenLE f.version e.version = true) ∧
    pathToDownload "" demoKeys demoExtract = .ok "folder/file-1.5.6-build.100.tgz" := by
  refine ⟨pathToDownload_of_no_matches keys extractFn, ?_, ?_⟩
  · intro h
    obtain ⟨e, hmem, hres, hmax⟩ := pathToDownload_max keys extractFn h
    exact ⟨e, hmem, hres, hmax⟩
  · obtain ⟨e, hmem, hres, hmax⟩ := pathToDownload_max demoKeys demoExtract (by decide)
    have hm : extractionsOf demoKeys demoExtract =
        [⟨"folder/file-1.5.6-build.10.tgz", "1.5.6-build.10"⟩,
         ⟨"folder/file-1.5.6-build.100.tgz", "1.5.6-build.100"⟩,
         ⟨"folder/file-1.5.6-build.9.tgz", "1.5.6-build.9"⟩] := by decide
    rw [hm] at hmem hmax
    have h100 := hmax ⟨"folder/file-1.5.6-build.100.tgz", "1.5.6-build.100"⟩ (by decide)
    simp only [List.mem_cons, List.not_mem_nil, or_false] at hmem
    rcases hmem with he | he | he
    · subst he
      exact absurd h100 (by decide)
    · subst he
      exact hres
    · subst he
      exact absurd h100 (by decide)

theorem pathToDownload_resolves_max_token_witness :
    ∃ e, e ∈ extractionsOf demoKeys demoExtract ∧
      pathToDownload "" demoKeys demoExtract = .ok e.path ∧
      ∀ f ∈ extractionsOf demoKeys demoExtract, tokenLE f.version e.version = true :=
  (pathToDownload_resolves_max_token demoKeys demoExtract).2.1 (by decide)

end GcsResource
